import Mathlib

/-!
Verification of the XPath-to-CSS converter of `parsel_h5/xpath.py`.

The Python module is a single pure function `xpath_to_css` built from a
handful of anchored regular expressions.  We embed it shallowly: strings are
`List Char`, each regex becomes an executable matching function whose
backtracking behaviour has been worked out by hand (the patterns are simple
enough that matching is deterministic; the few places where the regex engine
could backtrack are commented at the corresponding definition).  Python's
`str.strip`, `str.isdigit` and `re.IGNORECASE` are modelled over ASCII, which
covers every character class the patterns mention.
-/

namespace ParselH5

/-- Whitespace characters recognised by Python's `str.strip()` / `\s`
(ASCII range). -/
def pyIsSpace (c : Char) : Bool :=
  c = ' ' || c = '\t' || c = '\n' || c = '\r' || c = '\x0b' || c = '\x0c'

/-- Python `str.strip()`: drop leading and trailing whitespace. -/
def pyStrip (l : List Char) : List Char :=
  ((l.dropWhile pyIsSpace).reverse.dropWhile pyIsSpace).reverse

/-- ASCII decimal digit (`\d`, `str.isdigit` restricted to ASCII). -/
def isDigitCh (c : Char) : Bool := '0' ≤ c && c ≤ '9'

/-- Python `str.isdigit()`: non-empty and all digits. -/
def isDigits (l : List Char) : Bool := !l.isEmpty && l.all isDigitCh

/-- ASCII letter. -/
def isAsciiLetter (c : Char) : Bool :=
  ('a' ≤ c && c ≤ 'z') || ('A' ≤ c && c ≤ 'Z')

/-- First character of the `_TAG` / `_ATTR_NAME` identifier class:
`[a-zA-Z_]`. -/
def identStart (c : Char) : Bool := isAsciiLetter c || c = '_'

/-- Subsequent identifier characters: `[a-zA-Z0-9_-]`. -/
def identChar (c : Char) : Bool := identStart c || isDigitCh c || c = '-'

/-- `\w` (ASCII): letters, digits, underscore. -/
def wordChar (c : Char) : Bool := isAsciiLetter c || isDigitCh c || c = '_'

/-- The `_QUOTED_VALUE` character class `[-\w\s/:.#,;]`. -/
def valueChar (c : Char) : Bool :=
  c = '-' || wordChar c || pyIsSpace c || c = '/' || c = ':' || c = '.' ||
  c = '#' || c = ',' || c = ';'

/-- A single or double quote, the `['"]` class. -/
def quoteChar (c : Char) : Bool := c = '\'' || c = '"'

/-- Characters allowed in the value of `_ID_FUNC_PATTERN`: `[^'")\s]`. -/
def idValChar (c : Char) : Bool := !(quoteChar c || c = ')' || pyIsSpace c)

/-- Strip a fixed suffix from a list, returning the prefix on success. -/
def dropSfx (sfx l : List Char) : Option (List Char) :=
  if sfx.isSuffixOf l then some (l.take (l.length - sfx.length)) else none

/-- `_TEXT_PATTERN = re.compile(r"^(.*)/text\(\)$")`, used with `re.match`.
`.` does not match a newline and `$` also matches just before a single
trailing newline, so the pattern succeeds exactly when the string ends with
`"/text()"` (optionally followed by one final newline) and the captured
prefix is newline-free. -/
def text_pattern (l : List Char) : Option (List Char) :=
  match dropSfx "/text()".data l with
  | some g => if g.contains '\n' then none else some g
  | none =>
    match dropSfx "/text()\n".data l with
    | some g => if g.contains '\n' then none else some g
    | none => none

/-- `_ATTR_EXTRACT_PATTERN = re.compile(r"^(.*)/@([a-zA-Z_][a-zA-Z0-9_-]*)$")`.
The attribute name is the maximal identifier-character suffix (identifier
characters exclude `/` and `@`, so the split position is unique); it must be
preceded by `"/@"`, must start with a letter or underscore, and the captured
prefix must be newline-free (`.` again excludes newlines, `$` tolerates one
trailing newline). -/
def attr_extract_pattern (l : List Char) : Option (List Char × List Char) :=
  let core := if l.getLast? = some '\n' then l.dropLast else l
  let p := List.span identChar core.reverse
  match p.2 with
  | '@' :: '/' :: gRev =>
    match p.1.reverse with
    | c :: _ =>
      if identStart c && !gRev.contains '\n' then
        some (gRev.reverse, p.1.reverse) else none
    | [] => none
  | _ => none

/-- Result of matching `_NODE_PATTERN` against the head of the remaining
path: the groups `nav`, `tag`, `predicate`, `nth` and `rest`. -/
structure NodeM where
  nav : List Char
  tag : List Char
  pred : Option (List Char)
  nth : Option (List Char)
  rest : List Char
  deriving Repr, DecidableEq

/-- The tag group `([a-zA-Z_][a-zA-Z0-9_-]*|\*)`: a maximal identifier run
or a single star. -/
def tagSplit (r : List Char) : Option (List Char × List Char) :=
  match r with
  | [] => none
  | c :: r' =>
    if identStart c then
      let p := List.span identChar r'
      some (c :: p.1, p.2)
    else if c = '*' then some (['*'], r') else none

/-- The optional predicate group `(?:\[([^\]]+)\])?`: a bracket, a non-empty
run of non-`]` characters, and the closing bracket.  On failure nothing is
consumed (the group is optional). -/
def brkSplit (r : List Char) : Option (List Char × List Char) :=
  match r with
  | '[' :: r' =>
    let p := List.span (fun c => c ≠ ']') r'
    if p.1.isEmpty then none
    else
      match p.2 with
      | ']' :: rr => some (p.1, rr)
      | _ => none
  | _ => none

/-- The optional index group `(?:\[(\d+)\])?`: a bracket, a non-empty digit
run, and the closing bracket immediately after the digits. -/
def nthSplit (r : List Char) : Option (List Char × List Char) :=
  match r with
  | '[' :: r' =>
    let p := List.span isDigitCh r'
    if p.1.isEmpty then none
    else
      match p.2 with
      | ']' :: rr => some (p.1, rr)
      | _ => none
  | _ => none

/-- The trailing group `(?P<rest>.*)$`: `.` does not match a newline and `$`
also matches just before one final newline, so the group captures the
remainder when it is newline-free, drops a single trailing newline, and the
whole node pattern fails when an interior newline remains (no amount of
backtracking in the earlier groups can remove it). -/
def restCapture (r : List Char) : Option (List Char) :=
  if r.contains '\n' then
    if r.getLast? = some '\n' then
      if r.dropLast.contains '\n' then none else some r.dropLast
    else none
  else some r

/-- `_NODE_PATTERN`: `^(//?)(tag)(\[pred\])?(\[n\])?(.*)$`.  When the string
starts with `"//"` the single-slash alternative of `//?` can never rescue a
failed parse (the tag class excludes `/`), so the navigation marker is
determined by the first two characters. -/
def navSplit (s : List Char) : Option (List Char × List Char) :=
  match s with
  | '/' :: rest =>
    match rest with
    | c :: r => if c = '/' then some ("//".data, r) else some ("/".data, rest)
    | [] => some ("/".data, [])
  | _ => none

def node_pattern (s : List Char) : Option NodeM :=
  match navSplit s with
  | none => none
  | some (nav, r0) =>
    match tagSplit r0 with
    | none => none
    | some (tag, r1) =>
      let pr2 : Option (List Char) × List Char :=
        match brkSplit r1 with
        | some (p, rr) => (some p, rr)
        | none => (none, r1)
      let nr3 : Option (List Char) × List Char :=
        match nthSplit pr2.2 with
        | some (n, rr) => (some n, rr)
        | none => (none, pr2.2)
      match restCapture nr3.2 with
      | none => none
      | some rest => some ⟨nav, tag, pr2.1, nr3.1, rest⟩

/-- `_ID_FUNC_PATTERN = re.compile(r"^id\(['\"]?([^'\")\s]+)['\"]?\)(.*)$")`.
Both quotes are independently optional; the value class excludes quotes,
`)` and whitespace, which makes the match deterministic. -/
def id_func_pattern (s : List Char) : Option (List Char × List Char) :=
  match s with
  | 'i' :: 'd' :: '(' :: r =>
    let r1 := match r with
      | c :: r' => if quoteChar c then r' else r
      | [] => r
    let p := List.span idValChar r1
    if p.1.isEmpty then none else
    let r3 := match p.2 with
      | c :: r' => if quoteChar c then r' else p.2
      | [] => p.2
    match r3 with
    | ')' :: r4 =>
      match restCapture r4 with
      | some rest => some (p.1, rest)
      | none => none
    | _ => none
  | _ => none

/-- `_PRED_ATTR_EQ`: `^@([a-zA-Z_][a-zA-Z0-9_-]*)\s*=\s*['"](val)['"]$`
(the opening and closing quote need not agree).  Applied only to stripped
predicate bodies, so `$` is plain end-of-string here. -/
def pred_attr_eq (l : List Char) : Option (List Char × List Char) :=
  match l with
  | '@' :: c :: r =>
    if identStart c then
      let p := List.span identChar r
      match p.2.dropWhile pyIsSpace with
      | '=' :: r3 =>
        match r3.dropWhile pyIsSpace with
        | q :: r5 =>
          if quoteChar q then
            let v := List.span valueChar r5
            if v.1.isEmpty then none else
            match v.2 with
            | [q2] => if quoteChar q2 then some (c :: p.1, v.1) else none
            | _ => none
          else none
        | [] => none
      | _ => none
    else none
  | _ => none

/-- `_PRED_HAS_ATTR`: `^@([a-zA-Z_][a-zA-Z0-9_-]*)$`. -/
def pred_has_attr (l : List Char) : Option (List Char) :=
  match l with
  | '@' :: c :: r =>
    if identStart c then
      match List.span identChar r with
      | (a, []) => some (c :: a)
      | _ => none
    else none
  | _ => none

/-- Match a literal prefix, returning the remainder. -/
def dropLit : List Char → List Char → Option (List Char)
  | [], l => some l
  | c :: cs, d :: l => if d = c then dropLit cs l else none
  | _ :: _, [] => none

/-- Shared tail of the `contains(...)`/`starts-with(...)` attribute
patterns: `\s*@ident\s*,\s*['"](val)['"]\)$` (no whitespace allowed before
the closing parenthesis). -/
def containsAttrTail (r : List Char) : Option (List Char × List Char) :=
  match r.dropWhile pyIsSpace with
  | '@' :: c :: r1 =>
    if identStart c then
      let p := List.span identChar r1
      match p.2.dropWhile pyIsSpace with
      | ',' :: r3 =>
        match r3.dropWhile pyIsSpace with
        | q :: r5 =>
          if quoteChar q then
            let v := List.span valueChar r5
            if v.1.isEmpty then none else
            match v.2 with
            | [q2, ')'] => if quoteChar q2 then some (c :: p.1, v.1) else none
            | _ => none
          else none
        | [] => none
      | _ => none
    else none
  | _ => none

/-- `_PRED_CONTAINS_ATTR`: `^contains\(\s*@ident\s*,\s*['"](val)['"]\)$`. -/
def pred_contains_attr (l : List Char) : Option (List Char × List Char) :=
  match dropLit "contains(".data l with
  | some r => containsAttrTail r
  | none => none

/-- `_PRED_STARTS_WITH_ATTR`:
`^starts-with\(\s*@ident\s*,\s*['"](val)['"]\)$`. -/
def pred_starts_with_attr (l : List Char) : Option (List Char × List Char) :=
  match dropLit "starts-with(".data l with
  | some r => containsAttrTail r
  | none => none

/-- Shared tail of the text patterns: `\s*=\s*['"](val)['"]$`. -/
def textEqTail (r : List Char) : Bool :=
  match r.dropWhile pyIsSpace with
  | '=' :: r1 =>
    match r1.dropWhile pyIsSpace with
    | q :: r3 =>
      quoteChar q &&
      (let v := List.span valueChar r3
       !v.1.isEmpty &&
       match v.2 with
       | [q2] => quoteChar q2
       | _ => false)
    | [] => false
  | _ => false

/-- `_PRED_TEXT_EQ`: `^(?:text\(\)|\.)\s*=\s*['"](val)['"]$`. -/
def pred_text_eq (l : List Char) : Bool :=
  match dropLit "text()".data l with
  | some r => textEqTail r
  | none =>
    match l with
    | '.' :: r => textEqTail r
    | _ => false

/-- The tail `\s*,\s*['"](val)['"]\)$` of `_PRED_CONTAINS_TEXT`. -/
def containsTextTail (r : List Char) : Bool :=
  match r.dropWhile pyIsSpace with
  | ',' :: r1 =>
    match r1.dropWhile pyIsSpace with
    | q :: r3 =>
      quoteChar q &&
      (let v := List.span valueChar r3
       !v.1.isEmpty &&
       match v.2 with
       | [q2, ')'] => quoteChar q2
       | _ => false)
    | [] => false
  | _ => false

/-- `_PRED_CONTAINS_TEXT`:
`^contains\(\s*(?:text\(\)|\.)\s*,\s*['"](val)['"]\)$`. -/
def pred_contains_text (l : List Char) : Bool :=
  match dropLit "contains(".data l with
  | some r =>
    (match dropLit "text()".data (r.dropWhile pyIsSpace) with
     | some r1 => containsTextTail r1
     | none =>
       match r.dropWhile pyIsSpace with
       | '.' :: r1 => containsTextTail r1
       | _ => false)
  | none => false

/-- Uppercase variant of a lowercase ASCII letter; identity elsewhere.
Spelled as an explicit table so that facts about single characters reduce
by `decide`. -/
def upperOf (c : Char) : Char :=
  match c with
  | 'a' => 'A' | 'b' => 'B' | 'c' => 'C' | 'd' => 'D' | 'e' => 'E'
  | 'f' => 'F' | 'g' => 'G' | 'h' => 'H' | 'i' => 'I' | 'j' => 'J'
  | 'k' => 'K' | 'l' => 'L' | 'm' => 'M' | 'n' => 'N' | 'o' => 'O'
  | 'p' => 'P' | 'q' => 'Q' | 'r' => 'R' | 's' => 'S' | 't' => 'T'
  | 'u' => 'U' | 'v' => 'V' | 'w' => 'W' | 'x' => 'X' | 'y' => 'Y'
  | 'z' => 'Z' | _ => c

/-- Case-insensitive match of one subject character `c` against one pattern
character `p`; every pattern the detector uses is lowercase or symbolic, so
`re.IGNORECASE` amounts to also accepting the uppercase variant. -/
def charMatchCI (p c : Char) : Bool := c = p || c = upperOf p

/-- Pointwise case-insensitive match of a pattern against the head of the
subject. -/
def matchCIAt : List Char → List Char → Bool
  | [], _ => true
  | _ :: _, [] => false
  | p :: ps, c :: cs => charMatchCI p c && matchCIAt ps cs

/-- `re.search` with `re.IGNORECASE` for a literal pattern: the pattern
matches at some position of the subject. -/
def searchCI (needle : List Char) : List Char → Bool
  | [] => matchCIAt needle []
  | c :: cs => matchCIAt needle (c :: cs) || searchCI needle cs

/-- After a case-insensitive occurrence of `w`, at least one whitespace
character must follow (`\s+` after the word). -/
def matchWordThenWs (w : List Char) (l : List Char) : Bool :=
  match w, l with
  | [], d :: _ => pyIsSpace d
  | [], [] => false
  | p :: ps, c :: cs => charMatchCI p c && matchWordThenWs ps cs
  | _ :: _, [] => false

/-- `re.search` for `\s+word\s+` with `re.IGNORECASE`: some position holds
a whitespace character followed by the word followed by a whitespace
character (a single whitespace character on each side suffices for `\s+`). -/
def searchWsWord (w : List Char) : List Char → Bool
  | [] => false
  | c :: cs => (pyIsSpace c && matchWordThenWs w cs) || searchWsWord w cs

/-- One entry of the `unsupported` table in `_check_unsupported`: either a
literal pattern or one of the `\s+and\s+` / `\s+or\s+` connectives. -/
inductive UPat where
  | lit (needle : List Char)
  | wsWord (w : List Char)
  deriving Repr, DecidableEq

/-- Run one unsupported-pattern entry over a string (`re.search`,
case-insensitive). -/
def upMatch : UPat → List Char → Bool
  | .lit n, s => searchCI n s
  | .wsWord w, s => searchWsWord w s

/-- The `unsupported` list of `_check_unsupported`, in source order:
pattern and description. -/
def unsupportedList : List (UPat × List Char) :=
  [ (.lit "position()".data, "position() function".data),
    (.lit "last()".data, "last() function".data),
    (.lit "not(".data, "not() function".data),
    (.lit "following-sibling::".data, "following-sibling axis".data),
    (.lit "preceding-sibling::".data, "preceding-sibling axis".data),
    (.lit "ancestor::".data, "ancestor axis".data),
    (.lit "parent::".data, "parent axis".data),
    (.wsWord "and".data, "and operator in predicates".data),
    (.wsWord "or".data, "or operator in predicates".data) ]

/-- The description of the first unsupported pattern that matches, if any. -/
def findUnsupported (s : List Char) : Option (List Char) :=
  (unsupportedList.find? (fun p => upMatch p.1 s)).map (·.2)

/-- The `XPathConversionError` data: offending xpath, reason, optional
suggestion (the formatted message is derived and not modelled). -/
structure XPathConversionError where
  xpath : String
  reason : String
  suggestion : Option String
  deriving Repr, DecidableEq

/-- The `ConversionResult` tuple returned by `xpath_to_css`. -/
structure ConversionResult where
  css : String
  is_text : Bool
  is_attr : Bool
  attr_name : Option String
  deriving Repr, DecidableEq

/-- `_check_unsupported(xpath, original_xpath)`: raise on the first matching
entry of the table. -/
def check_unsupported (s : List Char) (original : List Char) :
    Except XPathConversionError Unit :=
  match findUnsupported s with
  | some desc =>
    .error ⟨String.mk original, String.mk (desc ++ " is not supported".data),
            some "Use CSS selectors or process results in Python"⟩
  | none => .ok ()

/-- The matcher chain of `_convert_predicate` after the initial
`predicate.strip()`, on the already-stripped body `p`. -/
def convert_predicate_core (p : List Char) (xpath : List Char) :
    Except XPathConversionError (List Char × Option (List Char)) :=
  if isDigits p then .ok ([], some p)
  else match pred_attr_eq p with
  | some (attr, value) =>
    if attr = "id".data then
      .ok ('#' :: value.map (fun c => if c = ' ' then '#' else c), none)
    else if attr = "class".data then
      .ok ('.' :: value.map (fun c => if c = ' ' then '.' else c), none)
    else .ok ('[' :: attr ++ '=' :: '"' :: value ++ ['"', ']'], none)
  | none =>
  match pred_has_attr p with
  | some attr => .ok ('[' :: attr ++ [']'], none)
  | none =>
  match pred_contains_attr p with
  | some (attr, value) => .ok ('[' :: attr ++ '*' :: '=' :: value ++ [']'], none)
  | none =>
  match pred_starts_with_attr p with
  | some (attr, value) => .ok ('[' :: attr ++ '^' :: '=' :: value ++ [']'], none)
  | none =>
  if pred_text_eq p then
    .error ⟨String.mk xpath, "Text matching predicates are not supported in CSS",
            some "Select elements first, then filter by text content in Python"⟩
  else if pred_contains_text p then
    .error ⟨String.mk xpath, "Text contains predicates are not supported in CSS",
            some "Select elements first, then filter by text content in Python"⟩
  else
    match check_unsupported p xpath with
    | .error e => .error e
    | .ok _ =>
      .error ⟨String.mk xpath,
              String.mk ("Unsupported predicate: [".data ++ p ++ "]".data),
              some "Use CSS selectors directly for better html5ever compatibility"⟩

/-- `_convert_predicate(predicate, xpath)`: the priority-ordered matcher
chain of the source, returning a CSS fragment and an optional positional
index; the body is first stripped (line `predicate = predicate.strip()`). -/
def convert_predicate (predicate : List Char) (xpath : List Char) :
    Except XPathConversionError (List Char × Option (List Char)) :=
  convert_predicate_core (pyStrip predicate) xpath

/-- `_convert_node`: combinator (none for the first node, space for `//`,
`" > "` for `/`), tag (empty for `*`), predicate fragment, and an
`:nth-of-type(n)` from the explicit index or the predicate. -/
def convert_node (nav tag : List Char) (pred nth : Option (List Char))
    (is_first : Bool) (xpath : List Char) :
    Except XPathConversionError (List Char) :=
  let comb : List Char :=
    if is_first then [] else if nav = "//".data then " ".data else " > ".data
  let tagPart : List Char := if tag = "*".data then [] else tag
  let predRes : Except XPathConversionError (List Char × Option (List Char)) :=
    match pred with
    | some p => convert_predicate p xpath
    | none => .ok ([], none)
  match predRes with
  | .error e => .error e
  | .ok (predPart, predNth) =>
    let finalNth := match nth with
      | some n => some n
      | none => predNth
    let nthPart : List Char := match finalNth with
      | some n => ":nth-of-type(".data ++ n ++ ")".data
      | none => []
    .ok (comb ++ tagPart ++ predPart ++ nthPart)

/-- The scanning loop of `_parse_and_convert`.  The fuel argument makes the
recursion structural; every caller passes `remaining.length + 1`, which is
sufficient because a successful `_NODE_PATTERN` match always consumes the
navigation marker and a non-empty tag (see `node_pattern_rest_lt`). -/
def parse_loop (fuel : Nat) (original : List Char) (is_first : Bool)
    (remaining : List Char) : Except XPathConversionError (List Char) :=
  match fuel with
  | 0 => .error ⟨String.mk original, "out of fuel", none⟩
  | fuel + 1 =>
    if remaining.isEmpty then .ok []
    else match node_pattern remaining with
    | none =>
      if (pyStrip remaining).isEmpty then .ok []
      else .error ⟨String.mk original,
                   String.mk ("Cannot parse: ".data ++ remaining),
                   some "Use CSS selectors directly"⟩
    | some m =>
      match convert_node m.nav m.tag m.pred m.nth is_first original with
      | .error e => .error e
      | .ok nodeCss =>
        match parse_loop fuel original false m.rest with
        | .error e => .error e
        | .ok tailCss => .ok (nodeCss ++ tailCss)

/-- `_parse_and_convert(xpath)`: optional leading `id(...)` segment, then
the scanning loop, then a final strip of the joined fragments. -/
def parse_and_convert (xpath : List Char) :
    Except XPathConversionError (List Char) :=
  match id_func_pattern xpath with
  | some (v, rest) =>
    (match parse_loop (rest.length + 1) xpath false rest with
     | .error e => .error e
     | .ok body => .ok (pyStrip (('#' :: v) ++ body)))
  | none =>
    (match parse_loop (xpath.length + 1) xpath true xpath with
     | .error e => .error e
     | .ok body => .ok (pyStrip body))

/-- The suffix-stripping phase of `xpath_to_css`: the `_TEXT_PATTERN` check
followed (on its output) by the `_ATTR_EXTRACT_PATTERN` check — two
sequential conditionals in the source, not an either/or. -/
def sfx_strip (l : List Char) :
    List Char × Bool × Bool × Option (List Char) :=
  let (l1, is_text) :=
    match text_pattern l with
    | some g => (g, true)
    | none => (l, false)
  match attr_extract_pattern l1 with
  | some (g, name) => (g, is_text, true, some name)
  | none => (l1, is_text, false, none)

/-- The trimmed, suffix-stripped remainder that `xpath_to_css` feeds to the
detector and the parser. -/
def stripped_remainder (s : String) : List Char :=
  pyStrip (sfx_strip (pyStrip s.data)).1

/-- `xpath_to_css(xpath)`: trim, strip the extraction suffixes, return `"*"`
on an empty remainder, reject unsupported constructs, convert the path. -/
def xpath_to_css (s : String) :
    Except XPathConversionError ConversionResult :=
  let st := sfx_strip (pyStrip s.data)
  let l3 := pyStrip st.1
  let is_text := st.2.1
  let is_attr := st.2.2.1
  let attr_name := st.2.2.2
  if l3.isEmpty then
    .ok ⟨"*", is_text, is_attr, attr_name.map String.mk⟩
  else
    match check_unsupported l3 l3 with
    | .error e => .error e
    | .ok _ =>
      match parse_and_convert l3 with
      | .error e => .error e
      | .ok css =>
        .ok ⟨String.mk css, is_text, is_attr, attr_name.map String.mk⟩

/-! ### Character-class and list lemmas -/

theorem span_all_sat {p : Char → Bool} {l : List Char}
    (h : ∀ x ∈ l, p x = true) : List.span p l = (l, []) := by
  rw [List.span_eq_take_drop, List.takeWhile_eq_self_iff.2 h,
    List.dropWhile_eq_nil_iff.2 h]

theorem span_append_stop {p : Char → Bool} {xs ys : List Char} {c : Char}
    (hall : ∀ x ∈ xs, p x = true) (hc : p c = false) :
    List.span p (xs ++ c :: ys) = (xs, c :: ys) := by
  rw [List.span_eq_take_drop]
  have ht : List.takeWhile p xs = xs := List.takeWhile_eq_self_iff.2 hall
  have hd : List.dropWhile p xs = [] := List.dropWhile_eq_nil_iff.2 hall
  rw [List.takeWhile_append, List.dropWhile_append]
  simp [ht, hd, List.takeWhile_cons, List.dropWhile_cons, hc]

theorem space_not_identChar {c : Char} (h : pyIsSpace c = true) :
    identChar c = false := by
  simp only [pyIsSpace, Bool.or_eq_true, decide_eq_true_eq] at h
  rcases h with ((((rfl | rfl) | rfl) | rfl) | rfl) | rfl <;> decide

theorem identChar_not_space {c : Char} (h : identChar c = true) :
    pyIsSpace c = false := by
  cases hw : pyIsSpace c with
  | false => rfl
  | true => exact absurd h (by simp [space_not_identChar hw])

theorem pyStrip_eq_self {l : List Char}
    (h1 : ∀ c, l.head? = some c → pyIsSpace c = false)
    (h2 : ∀ c, l.getLast? = some c → pyIsSpace c = false) :
    pyStrip l = l := by
  unfold pyStrip
  cases l with
  | nil => rfl
  | cons a t =>
    rw [List.dropWhile_cons, if_neg (by simp [h1 a rfl])]
    cases hr : (a :: t).reverse with
    | nil => exact absurd hr (by simp)
    | cons d r =>
      have hd : (a :: t).getLast? = some d := by
        rw [← List.head?_reverse, hr]; rfl
      rw [List.dropWhile_cons, if_neg (by simp [h2 d hd]), ← hr,
        List.reverse_reverse]

theorem pyStrip_of_charset {l : List Char}
    (h : ∀ c ∈ l, pyIsSpace c = false) : pyStrip l = l :=
  pyStrip_eq_self
    (fun c hc => h c (by cases l with
      | nil => simp at hc
      | cons a t => exact (by simpa using hc) ▸ List.mem_cons_self a t))
    (fun c hc => h c (List.mem_of_mem_getLast? hc))

/-! ### Facts about the case-insensitive search -/

theorem matchCIAt_mem {n l : List Char} (h : matchCIAt n l = true) :
    ∀ p ∈ n, ∃ c ∈ l, charMatchCI p c = true := by
  induction n generalizing l with
  | nil => simp
  | cons p ps ih =>
    cases l with
    | nil => simp [matchCIAt] at h
    | cons c cs =>
      rcases (by simpa [matchCIAt] using h : charMatchCI p c = true ∧
          matchCIAt ps cs = true) with ⟨h1, h2⟩
      intro q hq
      rcases List.mem_cons.1 hq with rfl | hq'
      · exact ⟨c, List.mem_cons_self c cs, h1⟩
      · obtain ⟨c', hc', hm⟩ := ih h2 q hq'
        exact ⟨c', List.mem_cons_of_mem c hc', hm⟩

theorem searchCI_mem {n l : List Char} (h : searchCI n l = true) :
    ∀ p ∈ n, ∃ c ∈ l, charMatchCI p c = true := by
  induction l with
  | nil =>
    cases n with
    | nil => simp
    | cons p ps => simp [searchCI, matchCIAt] at h
  | cons c cs ih =>
    rcases (by simpa [searchCI] using h) with h' | h'
    · exact matchCIAt_mem h'
    · intro q hq
      obtain ⟨c', hc', hm⟩ := ih h' q hq
      exact ⟨c', List.mem_cons_of_mem c hc', hm⟩

theorem searchCI_eq_false {n l : List Char} {w : Char} (hw : w ∈ n)
    (hup : upperOf w = w) (hl : w ∉ l) : searchCI n l = false := by
  cases hb : searchCI n l with
  | false => rfl
  | true =>
    obtain ⟨c, hc, hm⟩ := searchCI_mem hb w hw
    rcases (by simpa [charMatchCI, hup] using hm : c = w) with rfl
    exact absurd hc hl

theorem matchWordThenWs_ws {w l : List Char} (h : matchWordThenWs w l = true) :
    ∃ c ∈ l, pyIsSpace c = true := by
  induction w generalizing l with
  | nil =>
    cases l with
    | nil => simp [matchWordThenWs] at h
    | cons d r =>
      exact ⟨d, List.mem_cons_self d r, by simpa [matchWordThenWs] using h⟩
  | cons p ps ih =>
    cases l with
    | nil => simp [matchWordThenWs] at h
    | cons c cs =>
      obtain ⟨c', hc', hm⟩ :=
        ih (by simpa [matchWordThenWs] using h :
          charMatchCI p c = true ∧ matchWordThenWs ps cs = true).2
      exact ⟨c', List.mem_cons_of_mem c hc', hm⟩

theorem searchWsWord_ws {w l : List Char} (h : searchWsWord w l = true) :
    ∃ c ∈ l, pyIsSpace c = true := by
  induction l with
  | nil => simp [searchWsWord] at h
  | cons c cs ih =>
    rcases (by simpa [searchWsWord] using h) with ⟨h1, _⟩ | h'
    · exact ⟨c, List.mem_cons_self c cs, h1⟩
    · obtain ⟨c', hc', hm⟩ := ih h'
      exact ⟨c', List.mem_cons_of_mem c hc', hm⟩

theorem searchWsWord_eq_false {w l : List Char}
    (hl : ∀ c ∈ l, pyIsSpace c = false) : searchWsWord w l = false := by
  cases hb : searchWsWord w l with
  | false => rfl
  | true =>
    obtain ⟨c, hc, hm⟩ := searchWsWord_ws hb
    exact absurd hm (by simp [hl c hc])

/-- The detector accepts any string drawn from the path alphabet of a plain
path (identifier characters, slashes, `@`): none of the nine unsupported
patterns can occur in it. -/
theorem check_unsupported_ok {l orig : List Char}
    (hcs : ∀ c ∈ l, identChar c = true ∨ c = '/' ∨ c = '@') :
    check_unsupported l orig = .ok () := by
  have hparen : '(' ∉ l := fun hm => by
    rcases hcs '(' hm with h | h | h <;> exact absurd h (by decide)
  have hcolon : ':' ∉ l := fun hm => by
    rcases hcs ':' hm with h | h | h <;> exact absurd h (by decide)
  have hws : ∀ c ∈ l, pyIsSpace c = false := fun c hm => by
    rcases hcs c hm with h | rfl | rfl
    · exact identChar_not_space h
    · rfl
    · rfl
  have hnone : (unsupportedList.find? fun p => upMatch p.1 l) = none := by
    refine List.find?_eq_none.2 ?_
    intro x hx
    rcases (by simpa [unsupportedList] using hx) with
      rfl | rfl | rfl | rfl | rfl | rfl | rfl | rfl | rfl <;>
      simp only [upMatch, Bool.not_eq_true]
    · exact searchCI_eq_false (w := '(') (by decide) (by decide) hparen
    · exact searchCI_eq_false (w := '(') (by decide) (by decide) hparen
    · exact searchCI_eq_false (w := '(') (by decide) (by decide) hparen
    · exact searchCI_eq_false (w := ':') (by decide) (by decide) hcolon
    · exact searchCI_eq_false (w := ':') (by decide) (by decide) hcolon
    · exact searchCI_eq_false (w := ':') (by decide) (by decide) hcolon
    · exact searchCI_eq_false (w := ':') (by decide) (by decide) hcolon
    · exact searchWsWord_eq_false hws
    · exact searchWsWord_eq_false hws
  simp [check_unsupported, findUnsupported, hnone]

/-! ### Parsing a plain `//tag` or `/tag` path -/

/-- A non-empty element tag drawn from the identifier alternative of the
`_TAG` class (so not the wildcard). -/
def isTagIdent (t : List Char) : Bool :=
  match t with
  | [] => false
  | c :: r => identStart c && r.all identChar

theorem isTagIdent_ne_nil {t : List Char} (h : isTagIdent t = true) :
    t ≠ [] := by
  cases t <;> simp_all [isTagIdent]

theorem isTagIdent_chars {t : List Char} (h : isTagIdent t = true) :
    ∀ c ∈ t, identChar c = true := by
  cases t with
  | nil => simp [isTagIdent] at h
  | cons c r =>
    rcases (by simpa [isTagIdent, List.all_eq_true] using h :
        identStart c = true ∧ ∀ x ∈ r, identChar x = true) with ⟨hc, hall⟩
    intro x hx
    rcases List.mem_cons.1 hx with rfl | hx'
    · simp [identChar, hc]
    · exact hall x hx'

theorem isTagIdent_ne_star {t : List Char} (h : isTagIdent t = true) :
    t ≠ "*".data := by
  intro he
  rw [he] at h
  exact absurd h (by decide)

theorem isTagIdent_no_space {t : List Char} (h : isTagIdent t = true) :
    ∀ c ∈ t, pyIsSpace c = false :=
  fun c hc => identChar_not_space (isTagIdent_chars h c hc)

theorem contains_eq_false_of_not_mem {l : List Char} {a : Char}
    (h : a ∉ l) : l.contains a = false := by
  cases hb : l.contains a with
  | false => rfl
  | true => exact absurd (List.elem_iff.1 hb) h

theorem tagSplit_ident {t : List Char} (h : isTagIdent t = true) :
    tagSplit t = some (t, []) := by
  cases t with
  | nil => simp [isTagIdent] at h
  | cons c r =>
    rcases (by simpa [isTagIdent, List.all_eq_true] using h :
        identStart c = true ∧ ∀ x ∈ r, identChar x = true) with ⟨hc, hall⟩
    simp [tagSplit, hc, List.span_eq_take_drop,
      List.takeWhile_eq_self_iff.2 hall, List.dropWhile_eq_nil_iff.2 hall]

theorem node_pattern_dslash {t : List Char} (h : isTagIdent t = true) :
    node_pattern ('/' :: '/' :: t) = some ⟨"//".data, t, none, none, []⟩ := by
  simp [node_pattern, navSplit, tagSplit_ident h, brkSplit, nthSplit,
    restCapture]

theorem node_pattern_sslash {t : List Char} (h : isTagIdent t = true) :
    node_pattern ('/' :: t) = some ⟨"/".data, t, none, none, []⟩ := by
  cases t with
  | nil => simp [isTagIdent] at h
  | cons c r =>
    have hc : identStart c = true :=
      (by simpa [isTagIdent, List.all_eq_true] using h :
        identStart c = true ∧ ∀ x ∈ r, identChar x = true).1
    have hcn : c ≠ '/' := fun e => by
      rw [e] at hc; exact absurd hc (by decide)
    simp [node_pattern, navSplit, hcn, tagSplit_ident h, brkSplit, nthSplit,
      restCapture]

/-- A list ending in a character other than `)` and `\n` matches neither
branch of `_TEXT_PATTERN`. -/
theorem text_pattern_none_of_last {l : List Char} {d : Char}
    (hl : l.getLast? = some d) (h1 : d ≠ ')') (h2 : d ≠ '\n') :
    text_pattern l = none := by
  have hs1 : "/text()".data.isSuffixOf l = false := by
    cases hb : "/text()".data.isSuffixOf l with
    | false => rfl
    | true =>
      obtain ⟨u, hu⟩ := List.isSuffixOf_iff_suffix.1 hb
      rw [← hu, List.getLast?_append] at hl
      exact absurd (show ')' = d by simpa using hl).symm h1
  have hs2 : "/text()\n".data.isSuffixOf l = false := by
    cases hb : "/text()\n".data.isSuffixOf l with
    | false => rfl
    | true =>
      obtain ⟨u, hu⟩ := List.isSuffixOf_iff_suffix.1 hb
      rw [← hu, List.getLast?_append] at hl
      exact absurd (show '\n' = d by simpa using hl).symm h2
  simp [text_pattern, dropSfx, hs1, hs2]

/-- `_ATTR_EXTRACT_PATTERN` fails on any list made of an identifier-character
suffix preceded by a block whose last character is a slash. -/
theorem attr_extract_none_slash {pre t : List Char} {pr : List Char}
    (hch : ∀ c ∈ t, identChar c = true) (hne : t ≠ [])
    (hpre : pre.reverse = '/' :: pr) :
    attr_extract_pattern (pre ++ t) = none := by
  obtain ⟨d, hd⟩ : ∃ d, t.getLast? = some d :=
    Option.isSome_iff_exists.1 (List.getLast?_isSome.2 hne)
  have hdim : identChar d = true := hch d (List.mem_of_mem_getLast? hd)
  have hdn : d ≠ '\n' := fun e => by
    rw [e] at hdim; exact absurd hdim (by decide)
  have hlast : (pre ++ t).getLast? = some d := by
    rw [List.getLast?_append, hd]; rfl
  have hrev : (pre ++ t).reverse = t.reverse ++ '/' :: pr := by
    rw [List.reverse_append, hpre]
  have hspan : List.span identChar (t.reverse ++ '/' :: pr) =
      (t.reverse, '/' :: pr) :=
    span_append_stop (fun x hx => hch x (List.mem_reverse.1 hx)) (by decide)
  rw [List.span_eq_take_drop] at hspan
  have htk := congrArg Prod.fst hspan
  have hdr := congrArg Prod.snd hspan
  simp only at htk hdr
  unfold attr_extract_pattern
  rw [if_neg (by rw [hlast]; simp [hdn])]
  simp [List.reverse_append, hpre, htk, hdr, List.span_eq_take_drop]

/-- `convert_node` on a bare tag: just the combinator and the tag. -/
theorem convert_node_plain {nav t xp : List Char} (ht : t ≠ "*".data)
    (b : Bool) :
    convert_node nav t none none b xp =
      .ok ((if b then [] else if nav = "//".data then " ".data
            else " > ".data) ++ t) := by
  simp [convert_node, ht, Except.bind, pure, Except.pure]

theorem parse_loop_nil (f : Nat) (o : List Char) (b : Bool) :
    parse_loop (f + 1) o b [] = .ok [] := by
  simp [parse_loop]

/-- A single plain `//tag` step consumes the whole remainder. -/
theorem parse_loop_dslash {f : Nat} {o t : List Char}
    (h : isTagIdent t = true) :
    parse_loop (f + 2) o true ('/' :: '/' :: t) = .ok t := by
  have hne : ¬ ('/' :: '/' :: t).isEmpty = true := by simp
  rw [show f + 2 = (f + 1) + 1 from rfl]
  simp [parse_loop, node_pattern_dslash h, Except.bind,
    convert_node_plain (isTagIdent_ne_star h) true, parse_loop_nil]

theorem parse_loop_sslash {f : Nat} {o t : List Char}
    (h : isTagIdent t = true) :
    parse_loop (f + 2) o true ('/' :: t) = .ok t := by
  rw [show f + 2 = (f + 1) + 1 from rfl]
  simp [parse_loop, node_pattern_sslash h, Except.bind,
    convert_node_plain (isTagIdent_ne_star h) true, parse_loop_nil]

theorem parse_and_convert_dslash {t : List Char} (h : isTagIdent t = true) :
    parse_and_convert ('/' :: '/' :: t) = .ok t := by
  have hid : id_func_pattern ('/' :: '/' :: t) = none := rfl
  have hstrip : pyStrip t = t := pyStrip_of_charset (isTagIdent_no_space h)
  have hlen : ('/' :: '/' :: t).length + 1 = t.length + 1 + 2 := by
    simp
  simp [parse_and_convert, hid, hlen, parse_loop_dslash h, hstrip]

theorem parse_and_convert_sslash {t : List Char} (h : isTagIdent t = true) :
    parse_and_convert ('/' :: t) = .ok t := by
  have hid : id_func_pattern ('/' :: t) = none := rfl
  have hstrip : pyStrip t = t := pyStrip_of_charset (isTagIdent_no_space h)
  have hlen : ('/' :: t).length + 1 = t.length + 2 := by simp
  simp [parse_and_convert, hid, hlen,
    parse_loop_sslash (f := t.length) h, hstrip]

/-! ### The suffix patterns on well-shaped inputs -/

theorem text_pattern_sfx {a : List Char} (ha : '\n' ∉ a) :
    text_pattern (a ++ "/text()".data) = some a := by
  have hs : "/text()".data.isSuffixOf (a ++ "/text()".data) = true :=
    List.isSuffixOf_iff_suffix.2 ⟨a, rfl⟩
  have hlen : (a ++ "/text()".data).length - "/text()".data.length =
      a.length := by simp
  simp [text_pattern, dropSfx, hs, hlen, List.take_left, ha]

theorem attr_extract_sfx {g n : List Char} (hg : '\n' ∉ g)
    (hn : isTagIdent n = true) :
    attr_extract_pattern (g ++ '/' :: '@' :: n) = some (g, n) := by
  obtain ⟨d, hd⟩ : ∃ d, n.getLast? = some d :=
    Option.isSome_iff_exists.1 (List.getLast?_isSome.2 (isTagIdent_ne_nil hn))
  have hdi : identChar d = true :=
    isTagIdent_chars hn d (List.mem_of_mem_getLast? hd)
  have hdn : d ≠ '\n' := fun e => by
    rw [e] at hdi; exact absurd hdi (by decide)
  have hlast : (g ++ '/' :: '@' :: n).getLast? = some d := by
    rw [show g ++ '/' :: '@' :: n = (g ++ ['/', '@']) ++ n from by simp,
      List.getLast?_append, hd]
    rfl
  have hspan : List.span identChar (n.reverse ++ '@' :: '/' :: g.reverse) =
      (n.reverse, '@' :: '/' :: g.reverse) :=
    span_append_stop
      (fun x hx => isTagIdent_chars hn x (List.mem_reverse.1 hx)) (by decide)
  rw [List.span_eq_take_drop] at hspan
  have htk := congrArg Prod.fst hspan
  have hdr := congrArg Prod.snd hspan
  simp only at htk hdr
  obtain ⟨c, m, rfl⟩ : ∃ c m, n = c :: m := by
    cases n with
    | nil => exact absurd rfl (isTagIdent_ne_nil hn)
    | cons c m => exact ⟨c, m, rfl⟩
  have hcs : identStart c = true := by
    have h2 := hn
    simp [isTagIdent, List.all_eq_true] at h2
    exact h2.1
  simp only [List.reverse_cons, List.append_assoc, List.singleton_append]
    at htk hdr
  unfold attr_extract_pattern
  rw [if_neg (by rw [hlast]; simp [hdn])]
  simp [List.reverse_append, List.reverse_cons, List.append_assoc,
    List.singleton_append, List.span_eq_take_drop, htk, hdr, hcs,
    List.mem_reverse, hg]

/-! ### `xpath_to_css` on plain tag paths -/

theorem xpath_to_css_dslash {t : List Char} (h : isTagIdent t = true) :
    xpath_to_css (String.mk ('/' :: '/' :: t)) =
      .ok ⟨String.mk t, false, false, none⟩ := by
  have hch : ∀ c ∈ ('/' :: '/' :: t), pyIsSpace c = false := by
    intro c hc
    rcases List.mem_cons.1 hc with rfl | hc
    · rfl
    rcases List.mem_cons.1 hc with rfl | hc
    · rfl
    · exact identChar_not_space (isTagIdent_chars h c hc)
  have hstrip : pyStrip ('/' :: '/' :: t) = '/' :: '/' :: t :=
    pyStrip_of_charset hch
  obtain ⟨d, hd⟩ : ∃ d, t.getLast? = some d :=
    Option.isSome_iff_exists.1 (List.getLast?_isSome.2 (isTagIdent_ne_nil h))
  have hdi : identChar d = true :=
    isTagIdent_chars h d (List.mem_of_mem_getLast? hd)
  have hlast : ('/' :: '/' :: t).getLast? = some d := by
    rw [show ('/' :: '/' :: t) = ['/', '/'] ++ t from rfl,
      List.getLast?_append, hd]
    rfl
  have htext : text_pattern ('/' :: '/' :: t) = none :=
    text_pattern_none_of_last hlast
      (fun e => by rw [e] at hdi; exact absurd hdi (by decide))
      (fun e => by rw [e] at hdi; exact absurd hdi (by decide))
  have hattr : attr_extract_pattern ('/' :: '/' :: t) = none :=
    attr_extract_none_slash (isTagIdent_chars h) (isTagIdent_ne_nil h)
      (show "//".data.reverse = '/' :: ['/'] from rfl)
  have hcheck : check_unsupported ('/' :: '/' :: t) ('/' :: '/' :: t) =
      .ok () :=
    check_unsupported_ok (fun c hc => by
      rcases List.mem_cons.1 hc with rfl | hc
      · exact Or.inr (Or.inl rfl)
      rcases List.mem_cons.1 hc with rfl | hc
      · exact Or.inr (Or.inl rfl)
      · exact Or.inl (isTagIdent_chars h c hc))
  simp [xpath_to_css, sfx_strip, hstrip, htext, hattr, hcheck,
    parse_and_convert_dslash h]

theorem xpath_to_css_sslash {t : List Char} (h : isTagIdent t = true) :
    xpath_to_css (String.mk ('/' :: t)) =
      .ok ⟨String.mk t, false, false, none⟩ := by
  have hch : ∀ c ∈ ('/' :: t), pyIsSpace c = false := by
    intro c hc
    rcases List.mem_cons.1 hc with rfl | hc
    · rfl
    · exact identChar_not_space (isTagIdent_chars h c hc)
  have hstrip : pyStrip ('/' :: t) = '/' :: t := pyStrip_of_charset hch
  obtain ⟨d, hd⟩ : ∃ d, t.getLast? = some d :=
    Option.isSome_iff_exists.1 (List.getLast?_isSome.2 (isTagIdent_ne_nil h))
  have hdi : identChar d = true :=
    isTagIdent_chars h d (List.mem_of_mem_getLast? hd)
  have hlast : ('/' :: t).getLast? = some d := by
    rw [show ('/' :: t) = ['/'] ++ t from rfl, List.getLast?_append, hd]
    rfl
  have htext : text_pattern ('/' :: t) = none :=
    text_pattern_none_of_last hlast
      (fun e => by rw [e] at hdi; exact absurd hdi (by decide))
      (fun e => by rw [e] at hdi; exact absurd hdi (by decide))
  have hattr : attr_extract_pattern ('/' :: t) = none :=
    attr_extract_none_slash (isTagIdent_chars h) (isTagIdent_ne_nil h)
      (show "/".data.reverse = '/' :: [] from rfl)
  have hcheck : check_unsupported ('/' :: t) ('/' :: t) = .ok () :=
    check_unsupported_ok (fun c hc => by
      rcases List.mem_cons.1 hc with rfl | hc
      · exact Or.inr (Or.inl rfl)
      · exact Or.inl (isTagIdent_chars h c hc))
  simp [xpath_to_css, sfx_strip, hstrip, htext, hattr, hcheck,
    parse_and_convert_sslash h]

/-- Case-sensitive prefix match, used to state substring facts in the
claims. -/
def occursAt : List Char → List Char → Bool
  | [], _ => true
  | _ :: _, [] => false
  | p :: ps, c :: cs => (p = c) && occursAt ps cs

/-- Case-sensitive substring occurrence. -/
def occursIn (needle : List Char) : List Char → Bool
  | [] => needle.isEmpty
  | c :: cs => occursAt needle (c :: cs) || occursIn needle cs

/-! ### Progress of the segment scanner -/

theorem length_dropWhile_le (p : Char → Bool) (l : List Char) :
    (List.dropWhile p l).length ≤ l.length := by
  induction l with
  | nil => simp
  | cons c cs ih =>
    rw [List.dropWhile_cons]
    split
    · exact Nat.le_trans ih (Nat.le_succ _)
    · exact Nat.le_refl _

theorem navSplit_length {s nav r0 : List Char}
    (h : navSplit s = some (nav, r0)) : r0.length < s.length := by
  cases s with
  | nil => simp [navSplit] at h
  | cons a rest =>
    unfold navSplit at h
    split at h
    · next heq =>
      rcases (by simpa using heq : a = '/' ∧ rest = _) with ⟨rfl, rfl⟩
      cases rest with
      | nil =>
        rcases (by simpa using h : "/".data = nav ∧ [] = r0) with ⟨_, rfl⟩
        simp
      | cons c r =>
        by_cases hc : c = '/'
        · rcases (by simpa [hc] using h : "//".data = nav ∧ r = r0)
            with ⟨_, rfl⟩
          simp
          omega
        · rcases (by simpa [hc] using h : "/".data = nav ∧ c :: r = r0)
            with ⟨_, rfl⟩
          simp
    · cases h

theorem tagSplit_length {r tag r1 : List Char}
    (h : tagSplit r = some (tag, r1)) : r1.length < r.length := by
  cases r with
  | nil => simp [tagSplit] at h
  | cons c r' =>
    simp only [tagSplit] at h
    by_cases hc : identStart c = true
    · rw [if_pos hc] at h
      rcases (by simpa using h :
          c :: (List.span identChar r').1 = tag ∧
          (List.span identChar r').2 = r1) with ⟨_, hr1⟩
      rw [← hr1, List.span_eq_take_drop]
      exact Nat.lt_succ_of_le (length_dropWhile_le _ _)
    · rw [if_neg hc] at h
      by_cases hs : c = '*'
      · rcases (by simpa [hs] using h : ['*'] = tag ∧ r' = r1) with ⟨_, rfl⟩
        simp
      · simp [hs] at h

theorem brkSplit_length {r p rr : List Char}
    (h : brkSplit r = some (p, rr)) : rr.length ≤ r.length := by
  unfold brkSplit at h
  dsimp only at h
  split at h
  · next r' =>
    have hdl : (List.span (fun c => c ≠ ']') r').2.length ≤ r'.length := by
      rw [List.span_eq_take_drop]
      exact length_dropWhile_le _ _
    split at h
    · cases h
    · split at h
      · next rr0 heq =>
        rcases (by simpa using h :
            (List.span (fun c => decide (c ≠ ']')) r').1 = p ∧ rr0 = rr)
          with ⟨_, rfl⟩
        rw [heq] at hdl
        simp at hdl
        simp
        omega
      · cases h
  · cases h

theorem nthSplit_length {r p rr : List Char}
    (h : nthSplit r = some (p, rr)) : rr.length ≤ r.length := by
  unfold nthSplit at h
  dsimp only at h
  split at h
  · next r' =>
    have hdl : (List.span isDigitCh r').2.length ≤ r'.length := by
      rw [List.span_eq_take_drop]
      exact length_dropWhile_le _ _
    split at h
    · cases h
    · split at h
      · next rr0 heq =>
        rcases (by simpa using h :
            (List.span isDigitCh r').1 = p ∧ rr0 = rr) with ⟨_, rfl⟩
        rw [heq] at hdl
        simp at hdl
        simp
        omega
      · cases h
  · cases h

theorem restCapture_length {r rest : List Char}
    (h : restCapture r = some rest) : rest.length ≤ r.length := by
  unfold restCapture at h
  split at h
  · split at h
    · split at h
      · cases h
      · rcases (by simpa using h : r.dropLast = rest) with rfl
        simp
    · cases h
  · rcases (by simpa using h : r = rest) with rfl
    exact Nat.le_refl _

/-- Every successful `_NODE_PATTERN` match consumes a non-empty prefix: the
residual `rest` group is strictly shorter than the matched string (the
navigation marker and the tag each consume at least one character).  This
is the progress fact that makes the scanning loop of `_parse_and_convert`
terminate on every input. -/
theorem node_pattern_rest_lt {s : List Char} {m : NodeM}
    (h : node_pattern s = some m) : m.rest.length < s.length := by
  unfold node_pattern at h
  cases hn : navSplit s with
  | none => rw [hn] at h; cases h
  | some pr =>
    obtain ⟨nav, r0⟩ := pr
    rw [hn] at h
    cases ht : tagSplit r0 with
    | none => simp [ht] at h
    | some pt =>
      obtain ⟨tag, r1⟩ := pt
      simp only [ht] at h
      have h0 : r0.length < s.length := navSplit_length hn
      have h1 : r1.length < r0.length := tagSplit_length ht
      cases hb : brkSplit r1 with
      | none =>
        simp only [hb] at h
        cases hnt : nthSplit r1 with
        | none =>
          simp only [hnt] at h
          cases hr : restCapture r1 with
          | none => simp [hr] at h
          | some rest =>
            simp only [hr, Option.bind_some] at h
            have h3 : rest.length ≤ r1.length := restCapture_length hr
            rcases (by simpa using h :
              (⟨nav, tag, none, none, rest⟩ : NodeM) = m) with rfl
            show rest.length < s.length
            omega
        | some pn =>
          obtain ⟨nn, rrn⟩ := pn
          simp only [hnt] at h
          cases hr : restCapture rrn with
          | none => simp [hr] at h
          | some rest =>
            simp only [hr, Option.bind_some] at h
            have h2 : rrn.length ≤ r1.length := nthSplit_length hnt
            have h3 : rest.length ≤ rrn.length := restCapture_length hr
            rcases (by simpa using h :
              (⟨nav, tag, none, some nn, rest⟩ : NodeM) = m) with rfl
            show rest.length < s.length
            omega
      | some pb =>
        obtain ⟨pp, rrb⟩ := pb
        simp only [hb] at h
        have hbl : rrb.length ≤ r1.length := brkSplit_length hb
        cases hnt : nthSplit rrb with
        | none =>
          simp only [hnt] at h
          cases hr : restCapture rrb with
          | none => simp [hr] at h
          | some rest =>
            simp only [hr, Option.bind_some] at h
            have h3 : rest.length ≤ rrb.length := restCapture_length hr
            rcases (by simpa using h :
              (⟨nav, tag, some pp, none, rest⟩ : NodeM) = m) with rfl
            show rest.length < s.length
            omega
        | some pn =>
          obtain ⟨nn, rrn⟩ := pn
          simp only [hnt] at h
          cases hr : restCapture rrn with
          | none => simp [hr] at h
          | some rest =>
            simp only [hr, Option.bind_some] at h
            have h2 : rrn.length ≤ rrb.length := nthSplit_length hnt
            have h3 : rest.length ≤ rrn.length := restCapture_length hr
            rcases (by simpa using h :
              (⟨nav, tag, some pp, some nn, rest⟩ : NodeM) = m) with rfl
            show rest.length < s.length
            omega

/-! ### Claim theorems -/

/-- Claim C1, counterexample.  The claim says `is_text` and `is_attr` are
mutually exclusive and that `"//a/@href/text()"` in particular never yields
both.  In the code the two suffix checks are sequential `if`s, not an
either/or: the text suffix is stripped first and the attribute check then
runs on the remainder, so this very input succeeds with both flags true. -/
theorem text_and_attr_both_true :
    xpath_to_css "//a/@href/text()" = .ok ⟨"a", true, true, some "href"⟩ :=
  rfl

/-- Claim C2, counterexample.  The claim says the `contains` fragment
carries the value in double quotes; the code formats `[attr*=value]`
without any quotes (unlike the attribute-equality branch). -/
theorem contains_fragment_has_no_quotes :
    convert_predicate "contains(@name, \"value\")".data "q".data =
      .ok ("[name*=value]".data, none) ∧
    "[name*=value]".data ≠ "[name*=\"value\"]".data :=
  ⟨rfl, by decide⟩

/-- Claim C3, counterexample.  The input contains the connective
`" and "`, yet the conversion error names `position()` — the first entry of
the scan list that matches — so the reason does not contain "and". -/
theorem reason_names_first_construct_only :
    occursIn " and ".data "//position() and //div".data = true ∧
    xpath_to_css "//position() and //div" =
      .error ⟨"//position() and //div", "position() function is not supported",
              some "Use CSS selectors or process results in Python"⟩ ∧
    occursIn "and".data "position() function is not supported".data = false :=
  ⟨by decide, rfl, by decide⟩

/-- Claim C4: for every identifier tag, `"//tag"` and `"/tag"` convert to
css `tag` with both extraction flags false, and the navigation marker of
each later segment picks the combinator: `"//"` joins with a space
(descendant) and `"/"` with `" > "` (child). -/
theorem claim_segment_combinators :
    (∀ t : List Char, isTagIdent t = true →
      xpath_to_css (String.mk ('/' :: '/' :: t)) =
        .ok ⟨String.mk t, false, false, none⟩ ∧
      xpath_to_css (String.mk ('/' :: t)) =
        .ok ⟨String.mk t, false, false, none⟩) ∧
    xpath_to_css "//div//p" = .ok ⟨"div p", false, false, none⟩ ∧
    xpath_to_css "//div/p" = .ok ⟨"div > p", false, false, none⟩ ∧
    xpath_to_css "//div//ul/li" = .ok ⟨"div ul > li", false, false, none⟩ :=
  ⟨fun _ ht => ⟨xpath_to_css_dslash ht, xpath_to_css_sslash ht⟩,
    rfl, rfl, rfl⟩

/-- Claim C4, witness: the universal part applied to the tag `span`. -/
theorem claim_segment_combinators_witness :
    xpath_to_css (String.mk ('/' :: '/' :: "span".data)) =
      .ok ⟨String.mk "span".data, false, false, none⟩ :=
  (claim_segment_combinators.1 "span".data (by decide)).1

/-- Claim C5: whenever the trimmed input is empty after stripping the
extraction suffixes, `xpath_to_css` succeeds with css `"*"` and the flags
of the stripped suffixes; in particular for `"/text()"`, `"/@href"` and a
whitespace-only string. -/
theorem claim_empty_remainder_star :
    (∀ s : String, pyStrip (sfx_strip (pyStrip s.data)).1 = [] →
      xpath_to_css s = .ok ⟨"*", (sfx_strip (pyStrip s.data)).2.1,
        (sfx_strip (pyStrip s.data)).2.2.1,
        ((sfx_strip (pyStrip s.data)).2.2.2).map String.mk⟩) ∧
    xpath_to_css "/text()" = .ok ⟨"*", true, false, none⟩ ∧
    xpath_to_css "/@href" = .ok ⟨"*", false, true, some "href"⟩ ∧
    xpath_to_css "   " = .ok ⟨"*", false, false, none⟩ := by
  refine ⟨?_, rfl, rfl, rfl⟩
  intro s h
  simp [xpath_to_css, h]

/-- Claim C5, witness: the universal part applied to `"/text()"`. -/
theorem claim_empty_remainder_star_witness :
    xpath_to_css "/text()" = .ok ⟨"*", (sfx_strip (pyStrip "/text()".data)).2.1,
      (sfx_strip (pyStrip "/text()".data)).2.2.1,
      ((sfx_strip (pyStrip "/text()".data)).2.2.2).map String.mk⟩ :=
  claim_empty_remainder_star.1 "/text()" (by decide)

/-- Claim C9: a single wildcard segment contributes an empty fragment, so
`"//*"` converts to the empty css string, not to `"*"`. -/
theorem claim_wildcard_empty_css :
    xpath_to_css "//*" = .ok ⟨"", false, false, none⟩ ∧ ("" : String) ≠ "*" :=
  ⟨rfl, by decide⟩

/-- Claim C10: the unsupported-construct scan does not respect quoting —
`//div[@title='cats and dogs']` is rejected by the `" and "` rule even
though its predicate body is an otherwise-supported attribute equality
(second conjunct shows `_PRED_ATTR_EQ` accepts the body). -/
theorem claim_detector_ignores_quoting :
    xpath_to_css "//div[@title='cats and dogs']" =
      .error ⟨"//div[@title='cats and dogs']",
              "and operator in predicates is not supported",
              some "Use CSS selectors or process results in Python"⟩ ∧
    pred_attr_eq (pyStrip "@title='cats and dogs'".data) =
      some ("title".data, "cats and dogs".data) :=
  ⟨rfl, rfl⟩

/-- Claim C7: the scanner makes strict progress — every successful
`_NODE_PATTERN` match leaves a residual strictly shorter than its input, so
the segment loop (defined here by recursion on that length) terminates on
every input string, and `xpath_to_css` is a total function. -/
theorem claim_scanner_progress :
    (∀ (s : List Char) (m : NodeM), node_pattern s = some m →
      m.rest.length < s.length) ∧
    (∀ s : String, ∃ r, xpath_to_css s = r) :=
  ⟨fun _ _ h => node_pattern_rest_lt h, fun _ => ⟨_, rfl⟩⟩

/-- Claim C7, witness: the progress bound at the concrete match of
`"//div"`. -/
theorem claim_scanner_progress_witness :
    node_pattern "//div".data =
      some ⟨"//".data, "div".data, none, none, []⟩ ∧
    (⟨"//".data, "div".data, none, none, []⟩ : NodeM).rest.length <
      "//div".data.length :=
  ⟨rfl, claim_scanner_progress.1 "//div".data _ rfl⟩

/-- In the suffix-stripping phase the attribute flag is true exactly when an
attribute name was captured. -/
theorem sfx_strip_attr_iff (l : List Char) :
    ((sfx_strip l).2.2.1 = true ↔ (sfx_strip l).2.2.2 ≠ none) := by
  unfold sfx_strip
  cases h1 : text_pattern l with
  | none =>
    cases h2 : attr_extract_pattern l with
    | none => simp [h1, h2]
    | some p =>
      obtain ⟨g, nm⟩ := p
      simp [h1, h2]
  | some g =>
    cases h2 : attr_extract_pattern g with
    | none => simp [h1, h2]
    | some p =>
      obtain ⟨g2, nm⟩ := p
      simp [h1, h2]

/-- Claim C8: in every successful result, `attr_name` is present if and
only if `is_attr` is true. -/
theorem claim_attr_flag_iff_name :
    ∀ (s : String) (r : ConversionResult), xpath_to_css s = .ok r →
      (r.is_attr = true ↔ r.attr_name ≠ none) := by
  intro s r h
  have key := sfx_strip_attr_iff (pyStrip s.data)
  simp only [xpath_to_css] at h
  by_cases he :
      (pyStrip (sfx_strip (pyStrip s.data)).1).isEmpty = true
  · rw [if_pos he] at h
    obtain rfl := (Except.ok.inj h).symm
    simpa [Option.map_eq_none'] using key
  · rw [if_neg he] at h
    cases hc : check_unsupported (pyStrip (sfx_strip (pyStrip s.data)).1)
        (pyStrip (sfx_strip (pyStrip s.data)).1) with
    | error e => rw [hc] at h; cases h
    | ok u =>
      rw [hc] at h
      cases hp : parse_and_convert
          (pyStrip (sfx_strip (pyStrip s.data)).1) with
      | error e => rw [hp] at h; cases h
      | ok css =>
        rw [hp] at h
        obtain rfl := (Except.ok.inj h).symm
        simpa [Option.map_eq_none'] using key

/-- Claim C8, witness: the invariant at the concrete result of
`"//a/@href"`. -/
theorem claim_attr_flag_iff_name_witness :
    ((⟨"a", false, true, some "href"⟩ : ConversionResult).is_attr = true ↔
      (⟨"a", false, true, some "href"⟩ : ConversionResult).attr_name ≠
        none) :=
  claim_attr_flag_iff_name "//a/@href" ⟨"a", false, true, some "href"⟩ rfl

/-! ### The contains/starts-with branches of the predicate converter -/

theorem dropLit_eq {lit l r : List Char} (h : dropLit lit l = some r) :
    l = lit ++ r := by
  induction lit generalizing l with
  | nil =>
    rcases (by simpa [dropLit] using h : l = r) with rfl
    rfl
  | cons c cs ih =>
    cases l with
    | nil => simp [dropLit] at h
    | cons d l' =>
      unfold dropLit at h
      by_cases hd : d = c
      · rw [if_pos hd] at h
        rw [hd, ih h]
        rfl
      · rw [if_neg hd] at h
        cases h

theorem convert_predicate_core_contains {p xp a v : List Char}
    (h : pred_contains_attr p = some (a, v)) :
    convert_predicate_core p xp =
      .ok ('[' :: a ++ '*' :: '=' :: v ++ [']'], none) := by
  obtain ⟨r, hr⟩ : ∃ r, p = "contains(".data ++ r := by
    unfold pred_contains_attr at h
    cases hd : dropLit "contains(".data p with
    | none => rw [hd] at h; cases h
    | some r => exact ⟨r, dropLit_eq hd⟩
  subst hr
  simp only [show "contains(".data ++ r =
    'c' :: 'o' :: 'n' :: 't' :: 'a' :: 'i' :: 'n' :: 's' :: '(' :: r
    from rfl] at h ⊢
  simp [convert_predicate_core, isDigits,
    (by decide : isDigitCh 'c' = false), pred_attr_eq, pred_has_attr, h]

theorem convert_predicate_core_starts {p xp a v : List Char}
    (h : pred_starts_with_attr p = some (a, v)) :
    convert_predicate_core p xp =
      .ok ('[' :: a ++ '^' :: '=' :: v ++ [']'], none) := by
  obtain ⟨r, hr⟩ : ∃ r, p = "starts-with(".data ++ r := by
    unfold pred_starts_with_attr at h
    cases hd : dropLit "starts-with(".data p with
    | none => rw [hd] at h; cases h
    | some r => exact ⟨r, dropLit_eq hd⟩
  subst hr
  simp only [show "starts-with(".data ++ r = 's' :: 't' :: 'a' :: 'r' ::
    't' :: 's' :: '-' :: 'w' :: 'i' :: 't' :: 'h' :: '(' :: r
    from rfl] at h ⊢
  simp [convert_predicate_core, isDigits,
    (by decide : isDigitCh 's' = false), pred_attr_eq, pred_has_attr,
    pred_contains_attr, dropLit, h]

/-- Claim C2, amended: `contains(@name, "value")` maps to `[name*=value]`
and `starts-with(@name, "value")` to `[name^=value]`, with the value NOT
quoted in the output fragment, for every body accepted by the predicate
grammar. -/
theorem claim_contains_starts_fragments :
    (∀ b xp a v : List Char, pred_contains_attr (pyStrip b) = some (a, v) →
      convert_predicate b xp =
        .ok ('[' :: a ++ '*' :: '=' :: v ++ [']'], none)) ∧
    (∀ b xp a v : List Char, pred_starts_with_attr (pyStrip b) = some (a, v) →
      convert_predicate b xp =
        .ok ('[' :: a ++ '^' :: '=' :: v ++ [']'], none)) :=
  ⟨fun _ _ _ _ h => convert_predicate_core_contains h,
   fun _ _ _ _ h => convert_predicate_core_starts h⟩

/-- Claim C2, witness: the contains branch at a concrete body. -/
theorem claim_contains_starts_fragments_witness :
    convert_predicate "contains(@href, 'x')".data "q".data =
      .ok ('[' :: "href".data ++ '*' :: '=' :: "x".data ++ [']'], none) :=
  claim_contains_starts_fragments.1 "contains(@href, 'x')".data "q".data
    "href".data "x".data (by decide)

/-! ### Rejection paths of the predicate converter and the detector -/

theorem convert_predicate_core_text_eq {p xp : List Char}
    (h : pred_text_eq p = true) :
    convert_predicate_core p xp =
      .error ⟨String.mk xp, "Text matching predicates are not supported in CSS",
        some "Select elements first, then filter by text content in Python"⟩ := by
  unfold pred_text_eq at h
  cases hd : dropLit "text()".data p with
  | some r =>
    rw [hd] at h
    rcases dropLit_eq hd with rfl
    simp only [show "text()".data ++ r =
      't' :: 'e' :: 'x' :: 't' :: '(' :: ')' :: r from rfl] at h ⊢
    simp [convert_predicate_core, isDigits,
      (by decide : isDigitCh 't' = false), pred_attr_eq, pred_has_attr,
      pred_contains_attr, pred_starts_with_attr, pred_text_eq, dropLit, h]
  | none =>
    rw [hd] at h
    dsimp only at h
    split at h
    · simp [convert_predicate_core, isDigits,
        (by decide : isDigitCh '.' = false), pred_attr_eq, pred_has_attr,
        pred_contains_attr, pred_starts_with_attr, pred_text_eq, dropLit, h]
    · cases h

theorem convert_predicate_core_contains_text {p xp : List Char}
    (h : pred_contains_text p = true) :
    convert_predicate_core p xp =
      .error ⟨String.mk xp, "Text contains predicates are not supported in CSS",
        some "Select elements first, then filter by text content in Python"⟩ := by
  unfold pred_contains_text at h
  cases hd : dropLit "contains(".data p with
  | none => rw [hd] at h; cases h
  | some r =>
    rw [hd] at h
    dsimp only at h
    rcases dropLit_eq hd with rfl
    have hca : containsAttrTail r = none := by
      cases hd2 : dropLit "text()".data (r.dropWhile pyIsSpace) with
      | some r1 =>
        have := dropLit_eq hd2
        unfold containsAttrTail
        rw [this]
        rfl
      | none =>
        rw [hd2] at h
        dsimp only at h
        split at h
        · next r1 heq =>
          simp [containsAttrTail, heq]
        · cases h
    simp only [show "contains(".data ++ r =
      'c' :: 'o' :: 'n' :: 't' :: 'a' :: 'i' :: 'n' :: 's' :: '(' :: r
      from rfl] at h ⊢
    have hcx : pred_contains_text
        ('c' :: 'o' :: 'n' :: 't' :: 'a' :: 'i' :: 'n' :: 's' :: '(' :: r) =
        true := by
      unfold pred_contains_text
      simp only [show dropLit "contains(".data
        ('c' :: 'o' :: 'n' :: 't' :: 'a' :: 'i' :: 'n' :: 's' :: '(' :: r) =
        some r from by simp [dropLit]]
      exact h
    simp [convert_predicate_core, isDigits,
      (by decide : isDigitCh 'c' = false), pred_attr_eq, pred_has_attr,
      pred_contains_attr, pred_starts_with_attr, pred_text_eq, dropLit,
      hca, hcx]

/-- The orchestrator turns the detector's first hit on the trimmed,
suffix-stripped remainder into the corresponding conversion error. -/
theorem xpath_error_of_found {s : String} {d : List Char}
    (hne : stripped_remainder s ≠ [])
    (hf : findUnsupported (stripped_remainder s) = some d) :
    xpath_to_css s = .error ⟨String.mk (stripped_remainder s),
      String.mk (d ++ " is not supported".data),
      some "Use CSS selectors or process results in Python"⟩ := by
  have hds : stripped_remainder s =
      pyStrip (sfx_strip (pyStrip s.data)).1 := rfl
  have hc : check_unsupported (stripped_remainder s) (stripped_remainder s) =
      .error ⟨String.mk (stripped_remainder s),
        String.mk (d ++ " is not supported".data),
        some "Use CSS selectors or process results in Python"⟩ := by
    unfold check_unsupported
    rw [hf]
  simp only [xpath_to_css]
  rw [if_neg (by rw [← hds]; simpa [List.isEmpty_iff] using hne),
    ← hds, hc]

/-- Claim C3, amended: for each scanned construct, an input whose trimmed,
suffix-stripped remainder is first matched by that construct's pattern (in
the fixed scan order) fails with the reason naming that construct and the
fixed non-empty suggestion; each construct's name occurs in its reason
(second conjunct); and text-equality predicate bodies are rejected by the
predicate converter with their own reasons and a non-empty suggestion. -/
theorem claim_unsupported_constructs :
    (∀ (s : String) (d : List Char), stripped_remainder s ≠ [] →
      findUnsupported (stripped_remainder s) = some d →
      xpath_to_css s = .error ⟨String.mk (stripped_remainder s),
        String.mk (d ++ " is not supported".data),
        some "Use CSS selectors or process results in Python"⟩) ∧
    (occursIn "position()".data
        ("position() function".data ++ " is not supported".data) = true ∧
     occursIn "last()".data
        ("last() function".data ++ " is not supported".data) = true ∧
     occursIn "not(".data
        ("not() function".data ++ " is not supported".data) = true ∧
     occursIn "following-sibling".data
        ("following-sibling axis".data ++ " is not supported".data) = true ∧
     occursIn "preceding-sibling".data
        ("preceding-sibling axis".data ++ " is not supported".data) = true ∧
     occursIn "ancestor".data
        ("ancestor axis".data ++ " is not supported".data) = true ∧
     occursIn "parent".data
        ("parent axis".data ++ " is not supported".data) = true ∧
     occursIn "and".data
        ("and operator in predicates".data ++ " is not supported".data) = true ∧
     occursIn "or".data
        ("or operator in predicates".data ++ " is not supported".data) = true) ∧
    (∀ b xp : List Char, pred_text_eq (pyStrip b) = true →
      convert_predicate b xp = .error ⟨String.mk xp,
        "Text matching predicates are not supported in CSS",
        some "Select elements first, then filter by text content in Python"⟩) ∧
    (∀ b xp : List Char, pred_contains_text (pyStrip b) = true →
      convert_predicate b xp = .error ⟨String.mk xp,
        "Text contains predicates are not supported in CSS",
        some "Select elements first, then filter by text content in Python"⟩) ∧
    ("Use CSS selectors or process results in Python" : String) ≠ "" ∧
    ("Select elements first, then filter by text content in Python" :
      String) ≠ "" :=
  ⟨fun _ _ hne hf => xpath_error_of_found hne hf,
   by decide,
   fun _ _ h => convert_predicate_core_text_eq h,
   fun _ _ h => convert_predicate_core_contains_text h,
   by decide, by decide⟩

/-- Claim C3, witness: the detector part at `"//li[position()=1]"`. -/
theorem claim_unsupported_constructs_witness :
    xpath_to_css "//li[position()=1]" =
      .error ⟨String.mk (stripped_remainder "//li[position()=1]"),
        String.mk ("position() function".data ++ " is not supported".data),
        some "Use CSS selectors or process results in Python"⟩ :=
  claim_unsupported_constructs.1 "//li[position()=1]"
    "position() function".data (by decide) (by decide)

/-- Claim C1, amended: the text-suffix check and the attribute-suffix check
are applied in sequence, so a query ending in an attribute suffix followed
by the text suffix yields a result with BOTH `is_text` and `is_attr` true
(and `attr_name` set): the flags are not mutually exclusive. -/
theorem claim_sequential_suffix_checks :
    ∀ t n : List Char, isTagIdent t = true → isTagIdent n = true →
      xpath_to_css (String.mk
          ((('/' :: '/' :: t) ++ '/' :: '@' :: n) ++ "/text()".data)) =
        .ok ⟨String.mk t, true, true, some (String.mk n)⟩ := by
  intro t n ht hn
  have hnlt : '\n' ∉ t := fun hm =>
    absurd (isTagIdent_chars ht '\n' hm) (by decide)
  have hnln : '\n' ∉ n := fun hm =>
    absurd (isTagIdent_chars hn '\n' hm) (by decide)
  have hnla : '\n' ∉ ('/' :: '/' :: t) ++ '/' :: '@' :: n := by
    intro hm
    rcases List.mem_append.1 hm with hm | hm
    · rcases List.mem_cons.1 hm with h' | hm
      · cases h'
      rcases List.mem_cons.1 hm with h' | hm
      · cases h'
      · exact hnlt hm
    · rcases List.mem_cons.1 hm with h' | hm
      · cases h'
      rcases List.mem_cons.1 hm with h' | hm
      · cases h'
      · exact hnln hm
  have hsfx : ∀ c ∈ "/text()".data, pyIsSpace c = false := by decide
  have hch : ∀ c ∈ (('/' :: '/' :: t) ++ '/' :: '@' :: n) ++ "/text()".data,
      pyIsSpace c = false := by
    intro c hc
    rcases List.mem_append.1 hc with hc | hc
    · rcases List.mem_append.1 hc with hc | hc
      · rcases List.mem_cons.1 hc with rfl | hc
        · rfl
        rcases List.mem_cons.1 hc with rfl | hc
        · rfl
        · exact identChar_not_space (isTagIdent_chars ht c hc)
      · rcases List.mem_cons.1 hc with rfl | hc
        · rfl
        rcases List.mem_cons.1 hc with rfl | hc
        · rfl
        · exact identChar_not_space (isTagIdent_chars hn c hc)
    · exact hsfx c hc
  have hstrip0 : pyStrip ((('/' :: '/' :: t) ++ '/' :: '@' :: n) ++
      "/text()".data) = (('/' :: '/' :: t) ++ '/' :: '@' :: n) ++
      "/text()".data := pyStrip_of_charset hch
  have htext : text_pattern ((('/' :: '/' :: t) ++ '/' :: '@' :: n) ++
      "/text()".data) = some (('/' :: '/' :: t) ++ '/' :: '@' :: n) :=
    text_pattern_sfx hnla
  have hattr : attr_extract_pattern (('/' :: '/' :: t) ++ '/' :: '@' :: n) =
      some ('/' :: '/' :: t, n) :=
    attr_extract_sfx (fun hm => by
      rcases List.mem_cons.1 hm with h' | hm
      · cases h'
      rcases List.mem_cons.1 hm with h' | hm
      · cases h'
      · exact hnlt hm) hn
  have hstrip2 : pyStrip ('/' :: '/' :: t) = '/' :: '/' :: t :=
    pyStrip_of_charset (fun c hc => by
      rcases List.mem_cons.1 hc with rfl | hc
      · rfl
      rcases List.mem_cons.1 hc with rfl | hc
      · rfl
      · exact identChar_not_space (isTagIdent_chars ht c hc))
  have hcheck : check_unsupported ('/' :: '/' :: t) ('/' :: '/' :: t) =
      .ok () :=
    check_unsupported_ok (fun c hc => by
      rcases List.mem_cons.1 hc with rfl | hc
      · exact Or.inr (Or.inl rfl)
      rcases List.mem_cons.1 hc with rfl | hc
      · exact Or.inr (Or.inl rfl)
      · exact Or.inl (isTagIdent_chars ht c hc))
  have hsfx2 : sfx_strip ((('/' :: '/' :: t) ++ '/' :: '@' :: n) ++
      "/text()".data) = ('/' :: '/' :: t, true, true, some n) := by
    unfold sfx_strip
    rw [htext]
    dsimp only
    rw [hattr]
  unfold xpath_to_css
  rw [show (String.mk ((('/' :: '/' :: t) ++ '/' :: '@' :: n) ++
      "/text()".data)).data =
      (('/' :: '/' :: t) ++ '/' :: '@' :: n) ++ "/text()".data from rfl]
  rw [hstrip0, hsfx2]
  dsimp only
  rw [hstrip2, if_neg (by simp), hcheck]
  dsimp only
  rw [parse_and_convert_dslash ht]
  rfl

/-- Claim C1 (amended), witness: the universal statement at
`"//b/@src/text()"`. -/
theorem claim_sequential_suffix_checks_witness :
    xpath_to_css (String.mk
        ((('/' :: '/' :: "b".data) ++ '/' :: '@' :: "src".data) ++
          "/text()".data)) =
      .ok ⟨String.mk "b".data, true, true, some (String.mk "src".data)⟩ :=
  claim_sequential_suffix_checks "b".data "src".data (by decide) (by decide)

/-- Claim C6: a leading `id(value)` — value optionally quoted — is consumed
as an ID segment rendered `#value`, and the remainder is converted as a
normal path whose next segment receives a combinator (the loop continues
with `is_first = false`); concretely, `id('main')/div` and `id(main)/div`
give `#main > div` and `id("main")` alone gives `#main`. -/
theorem claim_id_function :
    (∀ (l v rest : List Char), id_func_pattern l = some (v, rest) →
      parse_and_convert l =
        match parse_loop (rest.length + 1) l false rest with
        | .error e => .error e
        | .ok body => .ok (pyStrip (('#' :: v) ++ body))) ∧
    xpath_to_css "id('main')/div" = .ok ⟨"#main > div", false, false, none⟩ ∧
    xpath_to_css "id(\"main\")" = .ok ⟨"#main", false, false, none⟩ ∧
    xpath_to_css "id(main)/div" = .ok ⟨"#main > div", false, false, none⟩ := by
  refine ⟨?_, rfl, rfl, rfl⟩
  intro l v rest h
  unfold parse_and_convert
  rw [h]

/-- Claim C6, witness: the universal part at `"id('m')/p"`. -/
theorem claim_id_function_witness :
    parse_and_convert "id('m')/p".data =
      match parse_loop ("/p".data.length + 1) "id('m')/p".data false
          "/p".data with
      | .error e => .error e
      | .ok body => .ok (pyStrip (('#' :: "m".data) ++ body)) :=
  claim_id_function.1 "id('m')/p".data "m".data "/p".data (by decide)

end ParselH5
